import Mathlib

/-!
Verification of the environment-reporter script src/examples/show_env.py.

The script enumerates the process environment, sorts the (name, value)
entries, and prints a banner-framed report to standard output, returning
exit status 0.

Embedding choices:
* The ambient environment (os.environ) is modelled as an association list
  of (name, value) string pairs, in enumeration order; the platform
  invariant that names are unique appears as a Nodup hypothesis where a
  claim needs it.
* Each print call appends one line to a stdout line list carried in an
  explicit process state, which also tracks the environment, stderr and
  how much of stdin has been consumed, so that frame conditions are
  statable.
* The comparison used by sorted(os.environ.items()) is the lexicographic
  order on pairs of strings, strings compared codepoint-wise.  It is a
  linear (total, antisymmetric) order, so the sorted permutation of the
  input list is unique; any sorting algorithm that returns a sorted
  permutation therefore computes exactly the value sorted() returns.  We
  use insertion sort, which the kernel can evaluate on concrete inputs.
  String comparison is phrased on the underlying character lists (the
  codepoint order, matching the source language) and bridged to the
  Mathlib order on String in the lemmas.
-/

namespace ShowEnv

/-- One environment entry: a (name, value) pair of strings. -/
abbrev EnvEntry := String × String

/-- The order in which sorted(os.environ.items()) arranges two entries:
lexicographic on the pair, names compared first, values breaking ties,
strings compared by codepoint. -/
def pairLe (a b : EnvEntry) : Prop :=
  a.1.data < b.1.data ∨ (a.1 = b.1 ∧ (a.2.data < b.2.data ∨ a.2 = b.2))

instance (a b : EnvEntry) : Decidable (pairLe a b) :=
  inferInstanceAs
    (Decidable (a.1.data < b.1.data ∨ (a.1 = b.1 ∧ (a.2.data < b.2.data ∨ a.2 = b.2))))

/-- Process state visible to the script: the ambient environment, the
lines written so far to stdout and stderr, and how many stdin reads have
happened. -/
structure ProcState where
  environ : List EnvEntry
  stdout : List String
  stderr : List String
  stdinRead : Nat

/-- Effect of one print(s) call: append the line s to stdout; nothing
else changes. -/
def printLine (s : String) (st : ProcState) : ProcState :=
  { st with stdout := st.stdout ++ [s] }

/-- The banner line, 60 repetitions of the equals sign. -/
def banner : String := String.mk (List.replicate 60 '=')

/-- The environment entries in the order sorted(os.environ.items())
yields them. -/
def sortedEnv (env : List EnvEntry) : List EnvEntry :=
  List.insertionSort pairLe env

/-- The line printed for one entry: NAME=VALUE, raw concatenation. -/
def formatEntry (kv : EnvEntry) : String :=
  kv.1 ++ "=" ++ kv.2

/-- The summary line for a count of n entries. -/
def totalLine (n : Nat) : String :=
  "Total: " ++ toString n ++ " environment variables"

/-- The body of the report: one NAME=VALUE line per sorted entry. -/
def bodyLines (env : List EnvEntry) : List String :=
  (sortedEnv env).map formatEntry

/-- Spec-side comparison, following the spec wording sort the entries by
name: only the names are compared, values never take part. -/
def nameLe (a b : EnvEntry) : Prop :=
  a.1.data < b.1.data ∨ a.1 = b.1

instance (a b : EnvEntry) : Decidable (nameLe a b) :=
  inferInstanceAs (Decidable (a.1.data < b.1.data ∨ a.1 = b.1))

/-- Spec-side sort: the entries ordered by name alone, per the spec
wording, to be compared with the pair ordering the code uses. -/
def sortByNameSpec (env : List EnvEntry) : List EnvEntry :=
  List.insertionSort nameLe env

/-- The function main() of the script, line by line: three header prints,
a blank line, the loop over the sorted entries, a blank line, a banner,
the total line (recomputing len(os.environ) at that moment), a final
banner, and the returned status 0. -/
def main (st : ProcState) : ProcState × Int :=
  let st1 := printLine banner st
  let st2 := printLine "All Environment Variables" st1
  let st3 := printLine banner st2
  let st4 := printLine "" st3
  let st5 := (sortedEnv st4.environ).foldl (fun s kv => printLine (formatEntry kv) s) st4
  let st6 := printLine "" st5
  let st7 := printLine banner st6
  let st8 := printLine (totalLine st7.environ.length) st7
  let st9 := printLine banner st8
  (st9, 0)

/-- The process state at script start for a given ambient environment:
nothing written yet, nothing read yet. -/
def initState (env : List EnvEntry) : ProcState :=
  { environ := env, stdout := [], stderr := [], stdinRead := 0 }

/-- The complete stdout produced by one run over a given environment. -/
def run (env : List EnvEntry) : List String :=
  ((main (initState env)).1).stdout

/-- The exit status of one run, sys.exit(main()). -/
def exitCode (env : List EnvEntry) : Int :=
  (main (initState env)).2

/-- The full report for an environment, as a list of lines. -/
def report (env : List EnvEntry) : List String :=
  [banner, "All Environment Variables", banner, ""]
    ++ bodyLines env
    ++ ["", banner, totalLine env.length, banner]

theorem foldl_printLine (fmt : EnvEntry → String) (l : List EnvEntry) (st : ProcState) :
    l.foldl (fun s kv => printLine (fmt kv) s) st
      = { st with stdout := st.stdout ++ l.map fmt } := by
  induction l generalizing st with
  | nil => simp [printLine]
  | cons a l ih =>
      rw [List.foldl_cons, ih]
      simp [printLine]

theorem environ_foldl_printLine (fmt : EnvEntry → String) (l : List EnvEntry)
    (st : ProcState) :
    (l.foldl (fun s kv => printLine (fmt kv) s) st).environ = st.environ := by
  rw [foldl_printLine]

theorem main_eq (st : ProcState) :
    main st = ({ st with stdout := st.stdout ++ report st.environ }, 0) := by
  simp only [main]
  rw [foldl_printLine formatEntry]
  simp [printLine, report, bodyLines]

theorem run_eq (env : List EnvEntry) : run env = report env := by
  simp [run, main_eq, initState]

theorem data_lt_iff (a b : String) : a.data < b.data ↔ a < b :=
  Iff.symm String.lt_iff_toList_lt

theorem pairLe_iff (a b : EnvEntry) :
    pairLe a b ↔ a.1 < b.1 ∨ (a.1 = b.1 ∧ a.2 ≤ b.2) := by
  unfold pairLe
  rw [data_lt_iff, data_lt_iff, ← le_iff_lt_or_eq]

instance : IsTrans EnvEntry pairLe := by
  constructor
  intro a b c hab hbc
  rw [pairLe_iff] at hab hbc ⊢
  rcases hab with h | ⟨he, hv⟩
  · rcases hbc with h' | ⟨he', _⟩
    · exact Or.inl (lt_trans h h')
    · exact Or.inl (he' ▸ h)
  · rcases hbc with h' | ⟨he', hv'⟩
    · exact Or.inl (lt_of_le_of_lt (le_of_eq he) h')
    · exact Or.inr ⟨he.trans he', le_trans hv hv'⟩

instance : IsTotal EnvEntry pairLe := by
  constructor
  intro a b
  rw [pairLe_iff, pairLe_iff]
  rcases lt_trichotomy a.1 b.1 with h | h | h
  · exact Or.inl (Or.inl h)
  · rcases le_total a.2 b.2 with hv | hv
    · exact Or.inl (Or.inr ⟨h, hv⟩)
    · exact Or.inr (Or.inr ⟨h.symm, hv⟩)
  · exact Or.inr (Or.inl h)

instance : IsAntisymm EnvEntry pairLe := by
  constructor
  intro a b hab hba
  rw [pairLe_iff] at hab hba
  rcases hab with h | ⟨he, hv⟩
  · rcases hba with h' | ⟨he', _⟩
    · exact absurd h' (lt_asymm h)
    · exact absurd (he' ▸ h) (lt_irrefl b.1)
  · rcases hba with h' | ⟨_, hv'⟩
    · exact absurd (he ▸ h') (lt_irrefl b.1)
    · exact Prod.ext he (le_antisymm hv hv')

theorem sortedEnv_perm (env : List EnvEntry) : (sortedEnv env).Perm env :=
  List.perm_insertionSort pairLe env

theorem sortedEnv_sorted (env : List EnvEntry) :
    List.Sorted pairLe (sortedEnv env) :=
  List.sorted_insertionSort pairLe env

theorem pairwise_fst_ne_of_nodup {l : List EnvEntry}
    (h : (l.map Prod.fst).Nodup) :
    l.Pairwise (fun a b => a.1 ≠ b.1) :=
  List.pairwise_map.mp h

theorem sortedEnv_fst_nodup {env : List EnvEntry}
    (h : (env.map Prod.fst).Nodup) :
    ((sortedEnv env).map Prod.fst).Nodup :=
  (((sortedEnv_perm env).map Prod.fst).nodup_iff).mpr h

theorem sortedEnv_strict (env : List EnvEntry)
    (h : (env.map Prod.fst).Nodup) :
    (sortedEnv env).Pairwise (fun a b : EnvEntry => a.1 < b.1) := by
  refine List.Pairwise.imp₂ ?_ (sortedEnv_sorted env)
    (pairwise_fst_ne_of_nodup (sortedEnv_fst_nodup h))
  intro a b hle hne
  rcases (pairLe_iff a b).mp hle with h' | ⟨he, _⟩
  · exact h'
  · exact absurd he hne

theorem sortedEnv_fst_strict (env : List EnvEntry)
    (h : (env.map Prod.fst).Nodup) :
    ((sortedEnv env).map Prod.fst).Pairwise (· < ·) :=
  List.pairwise_map.mpr (sortedEnv_strict env h)

theorem nameLe_total_trans :
    (∀ a b : EnvEntry, nameLe a b ∨ nameLe b a)
    ∧ (∀ a b c : EnvEntry, nameLe a b → nameLe b c → nameLe a c) := by
  constructor
  · intro a b
    unfold nameLe
    rw [data_lt_iff, data_lt_iff]
    rcases lt_trichotomy a.1 b.1 with h | h | h
    · exact Or.inl (Or.inl h)
    · exact Or.inl (Or.inr h)
    · exact Or.inr (Or.inl h)
  · intro a b c hab hbc
    unfold nameLe at hab hbc ⊢
    rw [data_lt_iff] at hab hbc ⊢
    rcases hab with h | he
    · rcases hbc with h' | he'
      · exact Or.inl (lt_trans h h')
      · exact Or.inl (he' ▸ h)
    · rcases hbc with h' | he'
      · exact Or.inl (lt_of_le_of_lt (le_of_eq he) h')
      · exact Or.inr (he.trans he')

instance : IsTotal EnvEntry nameLe := ⟨nameLe_total_trans.1⟩

instance : IsTrans EnvEntry nameLe := ⟨nameLe_total_trans.2⟩

theorem sortByNameSpec_strict (env : List EnvEntry)
    (h : (env.map Prod.fst).Nodup) :
    (sortByNameSpec env).Pairwise (fun a b : EnvEntry => a.1 < b.1) := by
  have hnd : ((sortByNameSpec env).map Prod.fst).Nodup :=
    (((List.perm_insertionSort nameLe env).map Prod.fst).nodup_iff).mpr h
  refine List.Pairwise.imp₂ ?_ (List.sorted_insertionSort nameLe env)
    (pairwise_fst_ne_of_nodup hnd)
  intro a b hle hne
  rcases hle with h' | he
  · exact (data_lt_iff _ _).mp h'
  · exact absurd he hne

/-- C1: for every environment set with unique names, the number of
NAME=VALUE body lines equals the cardinality of the set, and the number
printed in the summary line equals that same cardinality. -/
theorem body_count_eq_card (env : List EnvEntry)
    (h : (env.map Prod.fst).Nodup) :
    (bodyLines env).length = env.toFinset.card
    ∧ totalLine env.toFinset.card ∈ run env := by
  have hnd : env.Nodup := List.Nodup.of_map _ h
  rw [List.toFinset_card_of_nodup hnd]
  constructor
  · simp [bodyLines, sortedEnv]
  · rw [run_eq]
    simp [report]

theorem body_count_eq_card_witness :
    (bodyLines [("A", "1"), ("B", "2")]).length
        = ([(("A" : String), ("1" : String)), ("B", "2")] : List EnvEntry).toFinset.card
    ∧ totalLine ([(("A" : String), ("1" : String)), ("B", "2")] : List EnvEntry).toFinset.card
        ∈ run [("A", "1"), ("B", "2")] :=
  body_count_eq_card [("A", "1"), ("B", "2")] (by decide)

/-- C2: for every environment set with unique names the body lines
appear in strictly ascending case-sensitive codepoint order of the
names, with no duplicate names; on the mixed-case example the names come
out in the order PATH, Z, a. -/
theorem body_sorted_strictly_by_name (env : List EnvEntry)
    (h : (env.map Prod.fst).Nodup) :
    ((sortedEnv env).map Prod.fst).Pairwise (· < ·)
    ∧ (sortedEnv [("PATH", "/usr/bin:/bin"), ("Z", ""), ("a", "x")]).map Prod.fst
        = ["PATH", "Z", "a"] :=
  ⟨sortedEnv_fst_strict env h, by decide⟩

theorem body_sorted_strictly_by_name_witness :
    ((sortedEnv [("PATH", "/usr/bin:/bin"), ("Z", ""), ("a", "x")]).map Prod.fst).Pairwise
        (· < ·)
    ∧ (sortedEnv [("PATH", "/usr/bin:/bin"), ("Z", ""), ("a", "x")]).map Prod.fst
        = ["PATH", "Z", "a"] :=
  body_sorted_strictly_by_name [("PATH", "/usr/bin:/bin"), ("Z", ""), ("a", "x")]
    (by decide)

/-- C3: every entry (NAME, VALUE) of the environment yields exactly the
body line NAME, one equals sign, VALUE, raw concatenation with no
quoting; in particular the single entry X maps to the line X=a=b, the
equals signs of the value preserved verbatim. -/
theorem entry_line_verbatim (env : List EnvEntry) (n v : String)
    (h : (n, v) ∈ env) :
    (n ++ "=" ++ v) ∈ bodyLines env
    ∧ bodyLines [("X", "a=b")] = ["X=a=b"] := by
  refine ⟨?_, by decide⟩
  have hm : ((n, v) : EnvEntry) ∈ sortedEnv env := by
    unfold sortedEnv
    exact (List.mem_insertionSort pairLe).mpr h
  exact List.mem_map_of_mem formatEntry hm

theorem entry_line_verbatim_witness :
    ("X" ++ "=" ++ "a=b") ∈ bodyLines [("X", "a=b")]
    ∧ bodyLines [("X", "a=b")] = ["X=a=b"] :=
  entry_line_verbatim [("X", "a=b")] "X" "a=b" (by decide)

/-- C4: the complete output of a run is a banner of 60 equals signs, the
title line, a banner, a blank line, the sorted body, a blank line, a
banner, the summary line carrying the entry count, and a final banner. -/
theorem output_structure (env : List EnvEntry) :
    run env
      = [banner, "All Environment Variables", banner, ""]
          ++ bodyLines env
          ++ ["", banner, totalLine env.length, banner]
    ∧ banner.data = List.replicate 60 '='
    ∧ banner.length = 60 :=
  ⟨run_eq env, rfl, by decide⟩

/-- C5: the run is deterministic: the output is a pure function of the
environment set at enumeration time, so any two enumerations of the same
unchanged set, in whatever order the platform yields the entries,
produce byte-identical output. -/
theorem run_deterministic (env₁ env₂ : List EnvEntry)
    (h : env₁.Perm env₂) :
    run env₁ = run env₂ := by
  have hsort : sortedEnv env₁ = sortedEnv env₂ :=
    List.eq_of_perm_of_sorted
      ((sortedEnv_perm env₁).trans (h.trans (sortedEnv_perm env₂).symm))
      (sortedEnv_sorted env₁) (sortedEnv_sorted env₂)
  simp only [run_eq, report, bodyLines, hsort, h.length_eq]

theorem run_deterministic_witness :
    run [("B", "2"), ("A", "1")] = run [("A", "1"), ("B", "2")] :=
  run_deterministic [("B", "2"), ("A", "1")] [("A", "1"), ("B", "2")]
    (List.Perm.swap ("A", "1") ("B", "2") [])

/-- C6: for every environment set the script terminates normally with
exit status 0. -/
theorem exit_code_zero (env : List EnvEntry) : exitCode env = 0 := by
  simp [exitCode, main_eq]

/-- C7: on an empty environment the output is the two header banners
around the title, a blank line, immediately another blank line with no
entry lines between them, a banner, the summary line counting 0
variables, and the final banner. -/
theorem empty_env_report :
    run [] = [banner, "All Environment Variables", banner, "",
              "", banner, "Total: 0 environment variables", banner] := by
  rw [run_eq]
  rfl

/-- C8: the run never mutates the environment, writes nothing to
standard error, reads nothing from standard input, and its only effect
is appending the report to standard output. -/
theorem frame_no_mutation (st : ProcState) :
    ((main st).1).environ = st.environ
    ∧ ((main st).1).stderr = st.stderr
    ∧ ((main st).1).stdinRead = st.stdinRead
    ∧ ((main st).1).stdout = st.stdout ++ run st.environ := by
  rw [main_eq]
  exact ⟨rfl, rfl, rfl, by rw [run_eq]⟩

/-- C9: the code sorts the entries as pairs, values breaking ties, while
the spec sorts by name alone; whenever the names are unique the two
orderings yield the same sequence of entries. -/
theorem pair_sort_eq_name_sort (env : List EnvEntry)
    (h : (env.map Prod.fst).Nodup) :
    sortedEnv env = sortByNameSpec env := by
  haveI : IsAntisymm EnvEntry (fun a b : EnvEntry => a.1 < b.1) :=
    ⟨fun a b h1 h2 => absurd h2 (lt_asymm h1)⟩
  have hp : (sortedEnv env).Perm (sortByNameSpec env) :=
    (sortedEnv_perm env).trans (List.perm_insertionSort nameLe env).symm
  exact List.eq_of_perm_of_sorted hp (sortedEnv_strict env h)
    (sortByNameSpec_strict env h)

theorem pair_sort_eq_name_sort_witness :
    sortedEnv [("b", "1"), ("a", "2"), ("c", "0")]
      = sortByNameSpec [("b", "1"), ("a", "2"), ("c", "0")] :=
  pair_sort_eq_name_sort [("b", "1"), ("a", "2"), ("c", "0")] (by decide)

/-- C10: an entry whose value is the empty string is still reported: its
body line is the name immediately followed by one equals sign and
nothing else, and the entry is counted in the body line count and in the
printed total. -/
theorem empty_value_reported (env : List EnvEntry) (n : String)
    (h : (n, "") ∈ env) :
    (n ++ "=") ∈ bodyLines env
    ∧ (bodyLines env).length = env.length
    ∧ totalLine env.length ∈ run env := by
  refine ⟨?_, by simp [bodyLines, sortedEnv], ?_⟩
  · have hm : ((n, "") : EnvEntry) ∈ sortedEnv env := by
      unfold sortedEnv
      exact (List.mem_insertionSort pairLe).mpr h
    have hline := List.mem_map_of_mem formatEntry hm
    simpa [formatEntry, bodyLines] using hline
  · rw [run_eq]
    simp [report]

theorem empty_value_reported_witness :
    ("EMPTY" ++ "=") ∈ bodyLines [("EMPTY", "")]
    ∧ (bodyLines [("EMPTY", "")]).length = ([("EMPTY", "")] : List EnvEntry).length
    ∧ totalLine ([("EMPTY", "")] : List EnvEntry).length ∈ run [("EMPTY", "")] :=
  empty_value_reported [("EMPTY", "")] "EMPTY" (by decide)

end ShowEnv
